import Mathlib

/-!
# Verification of the htsohm void-fraction module

This file embeds, in Lean 4, the void-fraction subsystem of the `htsohm`
repository:

* the geometric void-fraction estimator `calculate_void_fraction`
  (invoked from `htsohm/simulation/simulate/void_fraction.py` but whose
  implementation lives outside this excerpt, hence modelled from the
  design specification), and
* the orchestration code of `htsohm/simulation/simulate/void_fraction.py`:
  `parse_output` and `run`.

Real numbers of the Python code are embedded as rationals `ℚ`, so that all
definitions are executable and all predicates decidable.  Python's mutation
of the `material` record is embedded by explicit state passing: `run`
returns the final material together with an `Except` value recording
whether an exception escaped.
-/

set_option autoImplicit false

namespace Htsohm

/-! ## The geometric void-fraction estimator (spec-modelled)

The estimator `calculate_void_fraction` is imported from
`htsohm.void_fraction`, a module absent from the excerpt.  The definitions
in this section are therefore modelled from the specification's design
(§4.1 of the spec): a deterministic regular-grid sampling of the periodic
orthorhombic box, minimum-image distances computed per axis with squared
distance comparisons, the closed-exclusion-sphere tie policy (distance
exactly equal to the exclusion radius counts as blocked), and the two
precondition errors checked before any sampling.
-/

/-- Modelled from the spec: minimum-image convention applied independently
per axis — wrap a coordinate delta `d` to the nearest periodic image for a
box edge of length `L`. -/
def minImage (d L : ℚ) : ℚ := d - L * (round (d / L) : ℤ)

/-- An atom as passed to the estimator: Cartesian position and per-atom
radius (the `sigma` slot of the `(x, y, z, sigma)` tuples the caller
builds). -/
structure Atom where
  x : ℚ
  y : ℚ
  z : ℚ
  sigma : ℚ
deriving DecidableEq

/-- An orthorhombic periodic box: the three edge lengths `(a, b, c)`. -/
abbrev Box := ℚ × ℚ × ℚ

/-- A point of the box. -/
abbrev Point := ℚ × ℚ × ℚ

/-- Modelled from the spec: squared minimum-image distance from a sample
point `p` to the atom centre `a`, each axis wrapped independently. -/
def distSq (box : Box) (p : Point) (a : Atom) : ℚ :=
  minImage (p.1 - a.x) box.1 ^ 2 + minImage (p.2.1 - a.y) box.2.1 ^ 2 +
    minImage (p.2.2 - a.z) box.2.2 ^ 2

/-- Modelled from the spec: the sample point is blocked by atom `a` when the
atom's centre lies within `a.sigma + probe_r` of the point under the
minimum-image distance; ties count as blocked (closed exclusion sphere).
The comparison uses squared distances, guarded by the sign of the exclusion
radius so that "within a negative distance" is never satisfied. -/
def blockedBy (box : Box) (probe_r : ℚ) (p : Point) (a : Atom) : Bool :=
  decide (0 ≤ a.sigma + probe_r) && decide (distSq box p a ≤ (a.sigma + probe_r) ^ 2)

/-- Modelled from the spec: a sample point is blocked when some atom blocks it. -/
def blocked (atoms : List Atom) (box : Box) (probe_r : ℚ) (p : Point) : Bool :=
  atoms.any (blockedBy box probe_r p)

/-- Modelled from the spec: deterministic regular-grid sampling — the
`(i, j, k)` cell-centre sample point for an `n × n × n` grid laid over the
box. -/
def samplePoint (box : Box) (n : ℕ) (i j k : ℕ) : Point :=
  (((i : ℚ) + 1/2) * box.1 / n, ((j : ℚ) + 1/2) * box.2.1 / n,
    ((k : ℚ) + 1/2) * box.2.2 / n)

/-- The index set of the `n × n × n` sampling grid. -/
def sampleIdx (n : ℕ) : Finset (ℕ × ℕ × ℕ) :=
  Finset.range n ×ˢ Finset.range n ×ˢ Finset.range n

/-- Modelled from the spec: the number of unblocked sample points. -/
def freeCount (atoms : List Atom) (box : Box) (probe_r : ℚ) (n : ℕ) : ℕ :=
  ((sampleIdx n).filter fun t =>
    blocked atoms box probe_r (samplePoint box n t.1 t.2.1 t.2.2) = false).card

/-- Modelled from the spec: accessible fraction = unblocked samples / total
samples, for the `n × n × n` grid. -/
def vfEstimate (atoms : List Atom) (box : Box) (probe_r : ℚ) (n : ℕ) : ℚ :=
  (freeCount atoms box probe_r n : ℚ) / (n : ℚ) ^ 3

/-- Modelled from the spec: the estimator's error taxonomy (§7). -/
inductive VFError where
  | InvalidBoxError
  | InvalidProbeError
deriving DecidableEq

/-- Modelled from the spec: `calculate_void_fraction` from
`htsohm.void_fraction` — precondition checks first (`InvalidBoxError` for a
non-positive box dimension, `InvalidProbeError` for a negative probe
radius, in the order the spec lists them), then the grid-sampled
accessible-volume estimate.  The grid resolution `n` embeds the spec's
configurable sample count `N = n³`. -/
def calculate_void_fraction (atoms : List Atom) (box : Box) (probe_r : ℚ)
    (n : ℕ) : Except VFError ℚ :=
  if box.1 ≤ 0 ∨ box.2.1 ≤ 0 ∨ box.2.2 ≤ 0 then .error .InvalidBoxError
  else if probe_r < 0 then .error .InvalidProbeError
  else .ok (vfEstimate atoms box probe_r n)

/-! ## The orchestration layer: `htsohm/simulation/simulate/void_fraction.py`

`parse_output` and `run` are embedded from the source.  Strings are Lean
strings; Python's `float` is abstracted as a parameter `toFloat`; the
external world `run` interacts with (the RASPA subprocess, the globbed
output files) is an explicit `RunWorld` record.  Python's in-place mutation
of `material` is embedded by returning the final material together with the
exception status: when an exception escapes, the returned material is the
input one, since the only mutation of `material` in the source (the
`append` at the end of `run`) is never reached.
-/

/-- The marker scanned for by `parse_output`. -/
def rosenbluthMarker : String := "Average Widom Rosenbluth-weight:"

/-- Occurrence of `pat` as a contiguous run of `s`. -/
def listIsInfix (pat : List Char) : List Char → Bool
  | [] => pat.isEmpty
  | c :: rest => pat.isPrefixOf (c :: rest) || listIsInfix pat rest

/-- Python's `"Average Widom Rosenbluth-weight:" in line` substring test. -/
def containsMarker (line : String) : Bool :=
  listIsInfix rosenbluthMarker.toList line.toList

/-- Python's `line.split()`: split on whitespace runs, dropping empty
tokens. -/
def pySplit (line : String) : List String :=
  ((line.toList.splitOnP fun c => c.isWhitespace).filter fun t => t ≠ []).map
    fun t => String.mk t

/-- The `VoidFraction` database record, restricted to the columns the
excerpt touches.  A column not yet set is `none`. -/
structure VoidFraction where
  adsorbate : Option String := none
  temperature : Option ℚ := none
  void_fraction : Option ℚ := none
  void_fraction_geo : Option ℚ := none
deriving DecidableEq

/-- `parse_output` from `void_fraction.py`: scan every line of the output
file; on each line containing the marker, set
`void_fraction.void_fraction` to `toFloat` of the fifth whitespace token
(`float(line.split()[4])` in the source).  `toFloat` abstracts Python's
`float`.  A matching line with fewer than five tokens raises `IndexError`
in Python, embedded as `Except.error ()`. -/
def parse_output (toFloat : String → ℚ) :
    List String → VoidFraction → Except Unit VoidFraction
  | [], vf => .ok vf
  | line :: rest, vf =>
    if containsMarker line then
      match (pySplit line)[4]? with
      | some tok =>
        parse_output toFloat rest { vf with void_fraction := some (toFloat tok) }
      | none => .error ()
    else parse_output toFloat rest vf

/-- A force-field atom type: its Lennard-Jones `sigma` parameter. -/
structure AtomTypes where
  sigma : ℚ
deriving DecidableEq

/-- An atom site of the material's structure: box-fractional coordinates
and its atom type. -/
structure AtomSite where
  x : ℚ
  y : ℚ
  z : ℚ
  atom_types : AtomTypes
deriving DecidableEq

/-- The material's structure: cell edge lengths `a`, `b`, `c` and the atom
sites.  (The Python attribute is `material.structure`; `structure` is a
Lean keyword, hence the field name `struct`.) -/
structure MatStructure where
  a : ℚ
  b : ℚ
  c : ℚ
  atom_sites : List AtomSite
deriving DecidableEq

/-- A material record: its structure and its list of `VoidFraction`
results. -/
structure Material where
  struct : MatStructure
  void_fraction : List VoidFraction
deriving DecidableEq

/-- The keys of `simulation_config` that `run` reads.  `do_raspa` and
`do_geo` model `"do_x" in simulation_config and simulation_config["do_x"]`;
`do_zeo` models the bare key-presence test `"do_zeo" in simulation_config`. -/
structure SimulationConfig where
  adsorbate : String
  temperature : ℚ
  probe_radius : ℚ
  do_raspa : Bool
  do_geo : Bool
  do_zeo : Bool

/-- The environment `run` interacts with: whether the RASPA subprocess
exits successfully (`subprocess.run(..., check=True)`), the contents of
the `Output/System_0/*.data` files the glob finds (one entry per file,
each a list of lines), Python's `float`, and the grid resolution of the
modelled estimator. -/
structure RunWorld where
  raspaOk : Bool
  dataFiles : List (List String)
  toFloat : String → ℚ
  nSamples : ℕ

/-- The `do_raspa` branch of `run`: launch the subprocess (an unsuccessful
exit raises `CalledProcessError` through `check=True`), then require
exactly one `*.data` file, then parse it. -/
def raspaStep (world : RunWorld) (cfg : SimulationConfig) (vf : VoidFraction) :
    Except String VoidFraction :=
  if cfg.do_raspa then
    if world.raspaOk then
      match world.dataFiles with
      | [output_file] =>
        match parse_output world.toFloat output_file vf with
        | .ok vf2 => .ok vf2
        | .error _ => .error "IndexError"
      | _ =>
        .error "ERROR: There should only be one data file in the output directory. Check code!"
    else .error "subprocess.CalledProcessError"
  else .ok vf

/-- The `do_geo` branch of `run`: build the atom tuples
`(a.x * structure.a, a.y * structure.b, a.z * structure.c,
a.atom_types.sigma)`, the box `(a, b, c)`, and call the estimator with
`probe_r = simulation_config["probe_radius"]`, storing the result in
`void_fraction.void_fraction_geo`. -/
def geoStep (cfg : SimulationConfig) (material : Material) (vf : VoidFraction)
    (n : ℕ) : Except String VoidFraction :=
  if cfg.do_geo then
    match calculate_void_fraction
        (material.struct.atom_sites.map fun s =>
          ⟨s.x * material.struct.a, s.y * material.struct.b,
            s.z * material.struct.c, s.atom_types.sigma⟩)
        (material.struct.a, material.struct.b, material.struct.c)
        cfg.probe_radius n with
    | .ok r => .ok { vf with void_fraction_geo := some r }
    | .error _ => .error "estimator precondition violated"
  else .ok vf

/-- The `do_zeo` branch of `run`: `pass`. -/
def zeoStep (cfg : SimulationConfig) (vf : VoidFraction) : VoidFraction :=
  if cfg.do_zeo then vf else vf

/-- The fresh `VoidFraction` record `run` builds before the branches, with
`adsorbate` and `temperature` from the config. -/
def initRecord (cfg : SimulationConfig) : VoidFraction :=
  { adsorbate := some cfg.adsorbate, temperature := some cfg.temperature }

/-- `run` from `void_fraction.py`: build the fresh `VoidFraction` record,
execute the `do_raspa`, `do_geo` and `do_zeo` branches in order, and append
the record to `material.void_fraction`.  Returns the final material and the
exception status; on an exception the input material is returned unchanged
(the `append` is never reached). -/
def run (world : RunWorld) (material : Material) (cfg : SimulationConfig) :
    Material × Except String Unit :=
  match raspaStep world cfg (initRecord cfg) with
  | .error e => (material, .error e)
  | .ok vf1 =>
    match geoStep cfg material vf1 world.nSamples with
    | .error e => (material, .error e)
    | .ok vf2 =>
      ({ material with void_fraction := material.void_fraction ++ [zeoStep cfg vf2] },
        .ok ())

/-! ## Basic counting lemmas for the estimator -/

theorem card_sampleIdx (n : ℕ) : (sampleIdx n).card = n ^ 3 := by
  simp [sampleIdx, Finset.card_product]
  ring

theorem freeCount_le (atoms : List Atom) (box : Box) (probe_r : ℚ) (n : ℕ) :
    freeCount atoms box probe_r n ≤ n ^ 3 := by
  rw [← card_sampleIdx n]
  exact Finset.card_filter_le _ _

theorem freeCount_nil (box : Box) (probe_r : ℚ) (n : ℕ) :
    freeCount [] box probe_r n = n ^ 3 := by
  rw [← card_sampleIdx n]
  unfold freeCount
  congr 1
  apply Finset.filter_true_of_mem
  intro t _
  simp [blocked]

theorem calculate_void_fraction_ok (atoms : List Atom) (box : Box) (probe_r : ℚ)
    (n : ℕ) (ha : 0 < box.1) (hb : 0 < box.2.1) (hc : 0 < box.2.2)
    (hp : 0 ≤ probe_r) :
    calculate_void_fraction atoms box probe_r n =
      .ok (vfEstimate atoms box probe_r n) := by
  unfold calculate_void_fraction
  rw [if_neg (by push_neg; exact ⟨ha, hb, hc⟩), if_neg (not_lt.mpr hp)]

/-- **C1.** For every atom list, box with strictly positive dimensions, and
probe radius ≥ 0, `calculate_void_fraction` returns a numeric value lying
in the closed interval `[0, 1]`. -/
theorem claim_C1_result_in_unit_interval (atoms : List Atom) (box : Box)
    (probe_r : ℚ) (n : ℕ) (ha : 0 < box.1) (hb : 0 < box.2.1)
    (hc : 0 < box.2.2) (hp : 0 ≤ probe_r) :
    calculate_void_fraction atoms box probe_r n =
        .ok (vfEstimate atoms box probe_r n) ∧
      0 ≤ vfEstimate atoms box probe_r n ∧ vfEstimate atoms box probe_r n ≤ 1 := by
  refine ⟨calculate_void_fraction_ok atoms box probe_r n ha hb hc hp, ?_, ?_⟩
  · exact div_nonneg (Nat.cast_nonneg _) (by positivity)
  · unfold vfEstimate
    rcases Nat.eq_zero_or_pos n with h0 | hn
    · subst h0; simp
    · have hn3 : (0 : ℚ) < (n : ℚ) ^ 3 := by
        have : (0 : ℚ) < (n : ℚ) := by exact_mod_cast hn
        positivity
      rw [div_le_one hn3]
      calc (freeCount atoms box probe_r n : ℚ) ≤ ((n ^ 3 : ℕ) : ℚ) := by
            exact_mod_cast freeCount_le atoms box probe_r n
        _ = (n : ℚ) ^ 3 := by push_cast; ring

/-- **C1 witness.** -/
theorem claim_C1_witness :
    calculate_void_fraction [⟨0, 0, 0, 1⟩] ((2 : ℚ), 3, 4) (1/2) 5 =
        .ok (vfEstimate [⟨0, 0, 0, 1⟩] ((2 : ℚ), 3, 4) (1/2) 5) ∧
      0 ≤ vfEstimate [⟨0, 0, 0, 1⟩] ((2 : ℚ), 3, 4) (1/2) 5 ∧
        vfEstimate [⟨0, 0, 0, 1⟩] ((2 : ℚ), 3, 4) (1/2) 5 ≤ 1 :=
  claim_C1_result_in_unit_interval [⟨0, 0, 0, 1⟩] ((2 : ℚ), 3, 4) (1/2) 5
    (by norm_num) (by norm_num) (by norm_num) (by norm_num)

/-- **C3.** For every valid box and every probe radius ≥ 0, calling
`calculate_void_fraction` with an empty atom list returns exactly `1`. -/
theorem claim_C3_empty_atoms_returns_one (box : Box) (probe_r : ℚ) (n : ℕ)
    (ha : 0 < box.1) (hb : 0 < box.2.1) (hc : 0 < box.2.2) (hp : 0 ≤ probe_r)
    (hn : 0 < n) :
    calculate_void_fraction [] box probe_r n = .ok 1 := by
  rw [calculate_void_fraction_ok [] box probe_r n ha hb hc hp]
  unfold vfEstimate
  rw [freeCount_nil]
  have hne : ((n : ℚ)) ^ 3 ≠ 0 := by
    have : (0 : ℚ) < (n : ℚ) := by exact_mod_cast hn
    positivity
  rw [show (((n ^ 3 : ℕ)) : ℚ) = (n : ℚ) ^ 3 by push_cast; ring, div_self hne]

/-- **C3 witness.** -/
theorem claim_C3_witness :
    calculate_void_fraction [] ((2 : ℚ), 3, 4) (1/2) 5 = .ok 1 :=
  claim_C3_empty_atoms_returns_one ((2 : ℚ), 3, 4) (1/2) 5
    (by norm_num) (by norm_num) (by norm_num) (by norm_num) (by norm_num)

/-! ## The error taxonomy (C2) -/

/-- **C2 counterexample.** At box `(-1, 1, 1)` and probe radius `-1` the
probe radius is negative, yet `calculate_void_fraction` does not fail with
`InvalidProbeError` (the box check fires first): "fails with
`InvalidProbeError` exactly when `probe_r < 0`" is false as stated. -/
theorem claim_C2_counterexample :
    calculate_void_fraction [] ((-1 : ℚ), 1, 1) (-1) 1 ≠
        .error VFError.InvalidProbeError ∧
      ((-1 : ℚ) < 0) := by
  constructor
  · unfold calculate_void_fraction
    rw [if_pos (by norm_num)]
    simp
  · norm_num

/-- **C2 (amended).** `calculate_void_fraction` fails with
`InvalidBoxError` exactly when some box dimension is ≤ 0; it fails with
`InvalidProbeError` exactly when all box dimensions are positive and
`probe_r < 0` (the box check runs first); and it returns a numeric result
exactly when all box dimensions are positive and `probe_r ≥ 0` — never an
error on any other input, however degenerate. -/
theorem claim_C2_error_taxonomy (atoms : List Atom) (box : Box) (probe_r : ℚ)
    (n : ℕ) :
    (calculate_void_fraction atoms box probe_r n = .error VFError.InvalidBoxError ↔
        (box.1 ≤ 0 ∨ box.2.1 ≤ 0 ∨ box.2.2 ≤ 0)) ∧
      (calculate_void_fraction atoms box probe_r n = .error VFError.InvalidProbeError ↔
        (0 < box.1 ∧ 0 < box.2.1 ∧ 0 < box.2.2 ∧ probe_r < 0)) ∧
      (calculate_void_fraction atoms box probe_r n =
          .ok (vfEstimate atoms box probe_r n) ↔
        (0 < box.1 ∧ 0 < box.2.1 ∧ 0 < box.2.2 ∧ 0 ≤ probe_r)) := by
  unfold calculate_void_fraction
  split_ifs with h1 h2
  · refine ⟨iff_of_true rfl h1, iff_of_false (by simp) ?_, iff_of_false (by simp) ?_⟩
    · rintro ⟨ha, hb, hc, -⟩
      rcases h1 with h | h | h <;> linarith
    · rintro ⟨ha, hb, hc, -⟩
      rcases h1 with h | h | h <;> linarith
  · push_neg at h1
    refine ⟨iff_of_false (by simp) ?_,
      iff_of_true rfl ⟨h1.1, h1.2.1, h1.2.2, h2⟩, iff_of_false (by simp) ?_⟩
    · rintro (h | h | h) <;> linarith [h1.1, h1.2.1, h1.2.2]
    · rintro ⟨-, -, -, h⟩
      exact absurd h (not_le.mpr h2)
  · push_neg at h1 h2
    refine ⟨iff_of_false (by simp) ?_, iff_of_false (by simp) ?_,
      iff_of_true rfl ⟨h1.1, h1.2.1, h1.2.2, h2⟩⟩
    · rintro (h | h | h) <;> linarith [h1.1, h1.2.1, h1.2.2]
    · rintro ⟨-, -, -, h⟩
      exact absurd h (not_lt.mpr h2)

/-! ## Monotonicity in the probe radius (C4) -/

theorem blockedBy_probe_mono (box : Box) (p : Point) (a : Atom) {p1 p2 : ℚ}
    (h12 : p1 ≤ p2) (hB : blockedBy box p1 p a = true) :
    blockedBy box p2 p a = true := by
  simp only [blockedBy, Bool.and_eq_true, decide_eq_true_eq] at hB ⊢
  obtain ⟨h0, hd⟩ := hB
  have h02 : 0 ≤ a.sigma + p2 := by linarith
  refine ⟨h02, hd.trans ?_⟩
  exact pow_le_pow_left₀ h0 (by linarith) 2

theorem blocked_probe_mono (atoms : List Atom) (box : Box) (p : Point)
    {p1 p2 : ℚ} (h12 : p1 ≤ p2) (hB : blocked atoms box p1 p = true) :
    blocked atoms box p2 p = true := by
  simp only [blocked, List.any_eq_true] at hB ⊢
  obtain ⟨a, ha, hBa⟩ := hB
  exact ⟨a, ha, blockedBy_probe_mono box p a h12 hBa⟩

theorem freeCount_probe_anti (atoms : List Atom) (box : Box) {p1 p2 : ℚ}
    (h12 : p1 ≤ p2) (n : ℕ) :
    freeCount atoms box p2 n ≤ freeCount atoms box p1 n := by
  unfold freeCount
  apply Finset.card_le_card
  apply Finset.monotone_filter_right
  intro t h2
  by_contra h1
  have hb : blocked atoms box p1 (samplePoint box n t.1 t.2.1 t.2.2) = true := by
    revert h1
    cases blocked atoms box p1 (samplePoint box n t.1 t.2.1 t.2.2) <;> simp
  rw [blocked_probe_mono atoms box _ h12 hb] at h2
  cases h2

/-- **C4.** For every fixed atom list and valid box, the result of
`calculate_void_fraction` is antitone in the probe radius: if
`p1 ≤ p2` (both ≥ 0) then the result for `p2` is ≤ the result for `p1`. -/
theorem claim_C4_probe_antitone (atoms : List Atom) (box : Box) (n : ℕ)
    {p1 p2 : ℚ} (ha : 0 < box.1) (hb : 0 < box.2.1) (hc : 0 < box.2.2)
    (hp1 : 0 ≤ p1) (h12 : p1 ≤ p2) :
    calculate_void_fraction atoms box p1 n = .ok (vfEstimate atoms box p1 n) ∧
      calculate_void_fraction atoms box p2 n = .ok (vfEstimate atoms box p2 n) ∧
      vfEstimate atoms box p2 n ≤ vfEstimate atoms box p1 n := by
  refine ⟨calculate_void_fraction_ok atoms box p1 n ha hb hc hp1,
    calculate_void_fraction_ok atoms box p2 n ha hb hc (le_trans hp1 h12), ?_⟩
  unfold vfEstimate
  rcases Nat.eq_zero_or_pos n with h0 | hn
  · subst h0; simp
  · have hn3 : (0 : ℚ) < (n : ℚ) ^ 3 := by
      have : (0 : ℚ) < (n : ℚ) := by exact_mod_cast hn
      positivity
    rw [div_le_div_iff_of_pos_right hn3]
    exact_mod_cast freeCount_probe_anti atoms box h12 n

/-- **C4 witness.** -/
theorem claim_C4_witness :
    calculate_void_fraction [⟨0, 0, 0, 1⟩] ((2 : ℚ), 3, 4) (1/2) 5 =
        .ok (vfEstimate [⟨0, 0, 0, 1⟩] ((2 : ℚ), 3, 4) (1/2) 5) ∧
      calculate_void_fraction [⟨0, 0, 0, 1⟩] ((2 : ℚ), 3, 4) 2 5 =
        .ok (vfEstimate [⟨0, 0, 0, 1⟩] ((2 : ℚ), 3, 4) 2 5) ∧
      vfEstimate [⟨0, 0, 0, 1⟩] ((2 : ℚ), 3, 4) 2 5 ≤
        vfEstimate [⟨0, 0, 0, 1⟩] ((2 : ℚ), 3, 4) (1/2) 5 :=
  claim_C4_probe_antitone [⟨0, 0, 0, 1⟩] ((2 : ℚ), 3, 4) 5
    (by norm_num) (by norm_num) (by norm_num) (by norm_num) (by norm_num)

/-! ## Periodic wraparound (C5) -/

theorem minImage_sub_edge {L : ℚ} (hL : L ≠ 0) (d : ℚ) :
    minImage (d - L) L = minImage d L := by
  unfold minImage
  rw [sub_div, div_self hL,
    show d / L - 1 = d / L - ((1 : ℤ) : ℚ) by push_cast; ring, round_sub_int]
  push_cast
  ring

theorem blockedBy_shift_x {box : Box} (h : box.1 ≠ 0) (probe_r : ℚ) (p : Point)
    (a : Atom) :
    blockedBy box probe_r p ⟨a.x + box.1, a.y, a.z, a.sigma⟩ =
      blockedBy box probe_r p a := by
  unfold blockedBy distSq
  rw [show p.1 - (a.x + box.1) = (p.1 - a.x) - box.1 by ring, minImage_sub_edge h]

theorem blockedBy_shift_y {box : Box} (h : box.2.1 ≠ 0) (probe_r : ℚ) (p : Point)
    (a : Atom) :
    blockedBy box probe_r p ⟨a.x, a.y + box.2.1, a.z, a.sigma⟩ =
      blockedBy box probe_r p a := by
  unfold blockedBy distSq
  rw [show p.2.1 - (a.y + box.2.1) = (p.2.1 - a.y) - box.2.1 by ring,
    minImage_sub_edge h]

theorem blockedBy_shift_z {box : Box} (h : box.2.2 ≠ 0) (probe_r : ℚ) (p : Point)
    (a : Atom) :
    blockedBy box probe_r p ⟨a.x, a.y, a.z + box.2.2, a.sigma⟩ =
      blockedBy box probe_r p a := by
  unfold blockedBy distSq
  rw [show p.2.2 - (a.z + box.2.2) = (p.2.2 - a.z) - box.2.2 by ring,
    minImage_sub_edge h]

theorem blocked_replace (pre post : List Atom) {a a' : Atom} (box : Box)
    (probe_r : ℚ) (p : Point)
    (h : blockedBy box probe_r p a' = blockedBy box probe_r p a) :
    blocked (pre ++ a' :: post) box probe_r p =
      blocked (pre ++ a :: post) box probe_r p := by
  simp [blocked, List.any_append, List.any_cons, h]

theorem vfEstimate_replace (pre post : List Atom) {a a' : Atom} (box : Box)
    (probe_r : ℚ) (n : ℕ)
    (h : ∀ p : Point, blockedBy box probe_r p a' = blockedBy box probe_r p a) :
    vfEstimate (pre ++ a' :: post) box probe_r n =
      vfEstimate (pre ++ a :: post) box probe_r n := by
  unfold vfEstimate freeCount
  congr 2
  congr 1
  apply Finset.filter_congr
  intro t _
  rw [blocked_replace pre post box probe_r _ (h _)]

/-- **C5.** For every valid box, translating any one atom of the list by one
full box edge along any axis leaves the result of `calculate_void_fraction`
unchanged: coordinates are interpreted modulo the box and need not be
pre-folded. -/
theorem claim_C5_periodic_wraparound (pre post : List Atom) (a : Atom)
    (box : Box) (probe_r : ℚ) (n : ℕ) (ha : 0 < box.1) (hb : 0 < box.2.1)
    (hc : 0 < box.2.2) :
    calculate_void_fraction (pre ++ ⟨a.x + box.1, a.y, a.z, a.sigma⟩ :: post)
          box probe_r n =
        calculate_void_fraction (pre ++ a :: post) box probe_r n ∧
      calculate_void_fraction (pre ++ ⟨a.x, a.y + box.2.1, a.z, a.sigma⟩ :: post)
          box probe_r n =
        calculate_void_fraction (pre ++ a :: post) box probe_r n ∧
      calculate_void_fraction (pre ++ ⟨a.x, a.y, a.z + box.2.2, a.sigma⟩ :: post)
          box probe_r n =
        calculate_void_fraction (pre ++ a :: post) box probe_r n := by
  refine ⟨?_, ?_, ?_⟩ <;> unfold calculate_void_fraction
  · rw [vfEstimate_replace pre post box probe_r n
      (fun p => blockedBy_shift_x (ne_of_gt ha) probe_r p a)]
  · rw [vfEstimate_replace pre post box probe_r n
      (fun p => blockedBy_shift_y (ne_of_gt hb) probe_r p a)]
  · rw [vfEstimate_replace pre post box probe_r n
      (fun p => blockedBy_shift_z (ne_of_gt hc) probe_r p a)]

/-- **C5 witness.** -/
theorem claim_C5_witness :
    calculate_void_fraction [(⟨1 + 2, 1, 1, 1⟩ : Atom)] ((2 : ℚ), 3, 4) 1 3 =
        calculate_void_fraction [(⟨1, 1, 1, 1⟩ : Atom)] ((2 : ℚ), 3, 4) 1 3 ∧
      calculate_void_fraction [(⟨1, 1 + 3, 1, 1⟩ : Atom)] ((2 : ℚ), 3, 4) 1 3 =
        calculate_void_fraction [(⟨1, 1, 1, 1⟩ : Atom)] ((2 : ℚ), 3, 4) 1 3 ∧
      calculate_void_fraction [(⟨1, 1, 1 + 4, 1⟩ : Atom)] ((2 : ℚ), 3, 4) 1 3 =
        calculate_void_fraction [(⟨1, 1, 1, 1⟩ : Atom)] ((2 : ℚ), 3, 4) 1 3 :=
  claim_C5_periodic_wraparound [] [] ⟨1, 1, 1, 1⟩ ((2 : ℚ), 3, 4) 1 3
    (by norm_num) (by norm_num) (by norm_num)

/-! ## Scale invariance (C6) -/

/-- Scaling an atom: position and radius multiplied by `s`. -/
def scaleAtom (s : ℚ) (a : Atom) : Atom :=
  ⟨s * a.x, s * a.y, s * a.z, s * a.sigma⟩

theorem minImage_smul {s : ℚ} (hs : s ≠ 0) (d L : ℚ) :
    minImage (s * d) (s * L) = s * minImage d L := by
  unfold minImage
  rw [mul_div_mul_left d L hs]
  ring

theorem distSq_smul {s : ℚ} (hs : s ≠ 0) (box : Box) (p : Point) (a : Atom) :
    distSq (s * box.1, s * box.2.1, s * box.2.2) (s * p.1, s * p.2.1, s * p.2.2)
        (scaleAtom s a) =
      s ^ 2 * distSq box p a := by
  unfold distSq scaleAtom
  simp only
  rw [show s * p.1 - s * a.x = s * (p.1 - a.x) by ring,
    show s * p.2.1 - s * a.y = s * (p.2.1 - a.y) by ring,
    show s * p.2.2 - s * a.z = s * (p.2.2 - a.z) by ring,
    minImage_smul hs, minImage_smul hs, minImage_smul hs]
  ring

theorem blockedBy_smul {s : ℚ} (hs : 0 < s) (box : Box) (probe_r : ℚ)
    (p : Point) (a : Atom) :
    blockedBy (s * box.1, s * box.2.1, s * box.2.2) (s * probe_r)
        (s * p.1, s * p.2.1, s * p.2.2) (scaleAtom s a) =
      blockedBy box probe_r p a := by
  unfold blockedBy
  have h1 : (0 ≤ (scaleAtom s a).sigma + s * probe_r) ↔ (0 ≤ a.sigma + probe_r) := by
    unfold scaleAtom
    simp only
    rw [← mul_add]
    exact mul_nonneg_iff_of_pos_left hs
  have h2 : (distSq (s * box.1, s * box.2.1, s * box.2.2)
        (s * p.1, s * p.2.1, s * p.2.2) (scaleAtom s a) ≤
          ((scaleAtom s a).sigma + s * probe_r) ^ 2) ↔
      (distSq box p a ≤ (a.sigma + probe_r) ^ 2) := by
    rw [distSq_smul (ne_of_gt hs)]
    unfold scaleAtom
    simp only
    rw [← mul_add, mul_pow]
    exact mul_le_mul_left (by positivity)
  rw [decide_eq_decide.mpr h1, decide_eq_decide.mpr h2]

theorem samplePoint_smul (s : ℚ) (box : Box) (n i j k : ℕ) :
    samplePoint (s * box.1, s * box.2.1, s * box.2.2) n i j k =
      (s * (samplePoint box n i j k).1, s * (samplePoint box n i j k).2.1,
        s * (samplePoint box n i j k).2.2) := by
  unfold samplePoint
  refine Prod.ext ?_ (Prod.ext ?_ ?_) <;> simp only <;> ring

theorem freeCount_smul {s : ℚ} (hs : 0 < s) (atoms : List Atom) (box : Box)
    (probe_r : ℚ) (n : ℕ) :
    freeCount (atoms.map (scaleAtom s)) (s * box.1, s * box.2.1, s * box.2.2)
        (s * probe_r) n =
      freeCount atoms box probe_r n := by
  unfold freeCount
  congr 1
  apply Finset.filter_congr
  intro t _
  rw [samplePoint_smul]
  unfold blocked
  rw [List.any_map]
  have hfun : (blockedBy (s * box.1, s * box.2.1, s * box.2.2) (s * probe_r)
        (s * (samplePoint box n t.1 t.2.1 t.2.2).1,
          s * (samplePoint box n t.1 t.2.1 t.2.2).2.1,
          s * (samplePoint box n t.1 t.2.1 t.2.2).2.2)) ∘ scaleAtom s =
      blockedBy box probe_r (samplePoint box n t.1 t.2.1 t.2.2) := by
    funext a
    exact blockedBy_smul hs box probe_r _ a
  rw [hfun]

/-- **C6.** For every valid input and every positive scale factor `s`,
calling `calculate_void_fraction` with all box edges, atom positions, atom
radii, and the probe radius multiplied by `s` returns the same result as
the unscaled call. -/
theorem claim_C6_scale_invariance (atoms : List Atom) (box : Box)
    (probe_r : ℚ) (n : ℕ) {s : ℚ} (hs : 0 < s) (ha : 0 < box.1)
    (hb : 0 < box.2.1) (hc : 0 < box.2.2) (hp : 0 ≤ probe_r) :
    calculate_void_fraction (atoms.map (scaleAtom s))
        (s * box.1, s * box.2.1, s * box.2.2) (s * probe_r) n =
      calculate_void_fraction atoms box probe_r n := by
  rw [calculate_void_fraction_ok atoms box probe_r n ha hb hc hp,
    calculate_void_fraction_ok _ _ _ n (by positivity) (by positivity)
      (by positivity) (by positivity)]
  unfold vfEstimate
  rw [freeCount_smul hs]

/-- **C6 witness.** -/
theorem claim_C6_witness :
    calculate_void_fraction [(⟨2 * 1, 2 * 1, 2 * 1, 2 * 1⟩ : Atom)]
        ((2 : ℚ) * 2, 2 * 3, 2 * 4) (2 * 1) 3 =
      calculate_void_fraction [(⟨1, 1, 1, 1⟩ : Atom)] ((2 : ℚ), 3, 4) 1 3 :=
  claim_C6_scale_invariance [⟨1, 1, 1, 1⟩] ((2 : ℚ), 3, 4) 1 3
    (by norm_num) (by norm_num) (by norm_num) (by norm_num) (by norm_num)

/-! ## `parse_output` (C8) -/

/-- **C8.** Provided every marker line has at least five whitespace tokens
(otherwise Python's `line.split()[4]` raises `IndexError`), `parse_output`
returns the record with `void_fraction` set to the parsed fifth token of
the *last* line containing `"Average Widom Rosenbluth-weight:"`, and
returns the record entirely unmodified when no line contains that
substring. -/
theorem claim_C8_parse_output_last_match (toFloat : String → ℚ)
    (lines : List String) (vf : VoidFraction)
    (h5 : ∀ l ∈ lines, containsMarker l = true → 5 ≤ (pySplit l).length) :
    parse_output toFloat lines vf = .ok
      (match (lines.filter containsMarker).getLast? with
       | none => vf
       | some l =>
         { vf with void_fraction := some (toFloat ((pySplit l).getD 4 "")) }) := by
  revert h5
  induction lines generalizing vf with
  | nil => intro h5; rfl
  | cons l rest ih =>
    intro h5
    by_cases hm : containsMarker l = true
    · have hlen : 5 ≤ (pySplit l).length := h5 l (List.mem_cons_self l rest) hm
      have htok : (pySplit l)[4]? = some ((pySplit l).getD 4 "") := by
        rw [List.getD_eq_getElem?_getD, List.getElem?_eq_getElem (by omega)]
        rfl
      rw [show parse_output toFloat (l :: rest) vf = parse_output toFloat rest
            { vf with void_fraction := some (toFloat ((pySplit l).getD 4 "")) } by
          rw [parse_output, if_pos hm, htok]]
      rw [ih _ (fun l' hl' hm' => h5 l' (List.mem_cons_of_mem l hl') hm')]
      rw [List.filter_cons_of_pos hm]
      rcases hrest : rest.filter containsMarker with _ | ⟨b, t⟩
      · simp
      · rw [List.getLast?_cons_cons]
        rcases hg : (b :: t).getLast? with _ | l'
        · rw [List.getLast?_eq_none_iff] at hg
          cases hg
        · simp
    · rw [show parse_output toFloat (l :: rest) vf = parse_output toFloat rest vf by
          rw [parse_output, if_neg hm]]
      rw [ih _ (fun l' hl' hm' => h5 l' (List.mem_cons_of_mem l hl') hm')]
      rw [List.filter_cons_of_neg (by simpa using hm)]

/-- **C8 witness.** -/
theorem claim_C8_witness :
    parse_output (fun _ => (0 : ℚ))
        ["no marker here",
          "Average Widom Rosenbluth-weight: [helium] 0.25 +/- 0.003"]
        ⟨none, none, none, none⟩ =
      .ok (match ((["no marker here",
          "Average Widom Rosenbluth-weight: [helium] 0.25 +/- 0.003"].filter
            containsMarker)).getLast? with
       | none => (⟨none, none, none, none⟩ : VoidFraction)
       | some l =>
         { (⟨none, none, none, none⟩ : VoidFraction) with
             void_fraction := some ((fun _ => (0 : ℚ)) ((pySplit l).getD 4 "")) }) :=
  claim_C8_parse_output_last_match (fun _ => (0 : ℚ))
    ["no marker here",
      "Average Widom Rosenbluth-weight: [helium] 0.25 +/- 0.003"]
    ⟨none, none, none, none⟩ (by decide)

/-! ## `run` (C7, C9, C10) -/

theorem zeoStep_eq (cfg : SimulationConfig) (vf : VoidFraction) :
    zeoStep cfg vf = vf := by
  unfold zeoStep
  exact ite_self vf

theorem parse_output_preserves (toFloat : String → ℚ) (lines : List String)
    (vf vf' : VoidFraction)
    (h : parse_output toFloat lines vf = .ok vf') :
    vf'.adsorbate = vf.adsorbate ∧ vf'.temperature = vf.temperature ∧
      vf'.void_fraction_geo = vf.void_fraction_geo := by
  induction lines generalizing vf with
  | nil =>
    rw [parse_output] at h
    simp only [Except.ok.injEq] at h
    subst h
    exact ⟨rfl, rfl, rfl⟩
  | cons l rest ih =>
    rw [parse_output] at h
    by_cases hm : containsMarker l = true
    · rw [if_pos hm] at h
      rcases htok : (pySplit l)[4]? with _ | tok <;> rw [htok] at h <;>
        dsimp only at h
      · cases h
      · exact ih { vf with void_fraction := some (toFloat tok) } h
    · rw [if_neg hm] at h
      exact ih _ h

theorem raspaStep_preserves (world : RunWorld) (cfg : SimulationConfig)
    (vf vf' : VoidFraction) (h : raspaStep world cfg vf = .ok vf') :
    vf'.adsorbate = vf.adsorbate ∧ vf'.temperature = vf.temperature ∧
      vf'.void_fraction_geo = vf.void_fraction_geo := by
  obtain ⟨rOk, dfs, tf, ns⟩ := world
  unfold raspaStep at h
  dsimp only at h
  by_cases hr : cfg.do_raspa = true
  · rw [if_pos hr] at h
    by_cases hok : rOk = true
    · rw [if_pos hok] at h
      rcases dfs with _ | ⟨f, _ | ⟨g, t⟩⟩ <;> dsimp only at h
      · cases h
      · rcases hp : parse_output tf f vf with e | vf2 <;> rw [hp] at h <;>
          dsimp only at h
        · cases h
        · simp only [Except.ok.injEq] at h
          subst h
          exact parse_output_preserves tf f vf vf2 hp
      · cases h
    · rw [if_neg hok] at h
      cases h
  · rw [if_neg hr] at h
    simp only [Except.ok.injEq] at h
    subst h
    exact ⟨rfl, rfl, rfl⟩

theorem geoStep_preserves (cfg : SimulationConfig) (material : Material)
    (vf vf' : VoidFraction) (n : ℕ) (h : geoStep cfg material vf n = .ok vf') :
    vf'.adsorbate = vf.adsorbate ∧ vf'.temperature = vf.temperature := by
  unfold geoStep at h
  split_ifs at h with hg
  · rcases hc : calculate_void_fraction
        (material.struct.atom_sites.map fun s =>
          ⟨s.x * material.struct.a, s.y * material.struct.b,
            s.z * material.struct.c, s.atom_types.sigma⟩)
        (material.struct.a, material.struct.b, material.struct.c)
        cfg.probe_radius n with e | r <;> rw [hc] at h
    · cases h
    · simp only [Except.ok.injEq] at h
      subst h
      exact ⟨rfl, rfl⟩
  · simp only [Except.ok.injEq] at h
    subst h
    exact ⟨rfl, rfl⟩

/-- **C9.** In the `do_raspa` branch, when the subprocess succeeded but the
number of `*.data` files found under `Output/System_0` is not exactly one,
`run` raises before any parsing and the material's `void_fraction` list is
left unchanged: the returned material is the input one, whatever the file
contents. -/
theorem claim_C9_data_file_count_error (world : RunWorld) (material : Material)
    (cfg : SimulationConfig) (hr : cfg.do_raspa = true)
    (hok : world.raspaOk = true) (hlen : world.dataFiles.length ≠ 1) :
    run world material cfg =
      (material,
        .error "ERROR: There should only be one data file in the output directory. Check code!") := by
  have hR : raspaStep world cfg (initRecord cfg) =
      .error "ERROR: There should only be one data file in the output directory. Check code!" := by
    unfold raspaStep
    rw [hr, hok, if_pos rfl, if_pos rfl]
    rcases hdf : world.dataFiles with _ | ⟨f, _ | ⟨g, t⟩⟩ <;> dsimp only
    rw [hdf] at hlen
    simp at hlen
  unfold run
  rw [hR]

/-- **C9 witness.** -/
theorem claim_C9_witness :
    run ⟨true, [], fun _ => 0, 1⟩ ⟨⟨1, 1, 1, []⟩, []⟩
        ⟨"helium", 298, 0, true, false, false⟩ =
      (⟨⟨1, 1, 1, []⟩, []⟩,
        .error "ERROR: There should only be one data file in the output directory. Check code!") :=
  claim_C9_data_file_count_error ⟨true, [], fun _ => 0, 1⟩ ⟨⟨1, 1, 1, []⟩, []⟩
    ⟨"helium", 298, 0, true, false, false⟩ rfl rfl (by decide)

theorem run_do_zeo_irrelevant (world : RunWorld) (material : Material)
    (cfg : SimulationConfig) (b : Bool) :
    run world material { cfg with do_zeo := b } = run world material cfg := by
  unfold run
  have h1 : raspaStep world { cfg with do_zeo := b }
        (initRecord { cfg with do_zeo := b }) =
      raspaStep world cfg (initRecord cfg) := rfl
  rw [h1]
  rcases raspaStep world cfg (initRecord cfg) with e | vf1 <;> dsimp only
  have h2 : geoStep { cfg with do_zeo := b } material vf1 world.nSamples =
      geoStep cfg material vf1 world.nSamples := rfl
  rw [h2]
  rcases geoStep cfg material vf1 world.nSamples with e | vf2 <;> dsimp only
  rw [zeoStep_eq, zeoStep_eq]

/-- **C10.** On every successful completion, `run` appends exactly one
`VoidFraction` record to `material.void_fraction` — the prefix is
untouched and the length grows by one — with its `adsorbate` and
`temperature` fields set from `simulation_config`, regardless of which
branches executed; and the `do_zeo` branch itself changes nothing. -/
theorem claim_C10_success_appends_one (world : RunWorld) (material : Material)
    (cfg : SimulationConfig) (h : (run world material cfg).2 = .ok ()) :
    (run world material cfg).1.void_fraction.length =
        material.void_fraction.length + 1 ∧
      ((run world material cfg).1.void_fraction.getLastD
          ⟨none, none, none, none⟩).adsorbate = some cfg.adsorbate ∧
      ((run world material cfg).1.void_fraction.getLastD
          ⟨none, none, none, none⟩).temperature = some cfg.temperature ∧
      (run world material cfg).1.void_fraction.take
          material.void_fraction.length = material.void_fraction ∧
      run world material { cfg with do_zeo := true } =
        run world material { cfg with do_zeo := false } := by
  refine ?_
  have hzeo : run world material { cfg with do_zeo := true } =
      run world material { cfg with do_zeo := false } := by
    rw [run_do_zeo_irrelevant world material cfg true,
      run_do_zeo_irrelevant world material cfg false]
  unfold run at h ⊢
  revert h
  rcases hR : raspaStep world cfg (initRecord cfg) with e | vf1 <;> dsimp only <;>
    intro h
  · cases h
  · revert h
    rcases hG : geoStep cfg material vf1 world.nSamples with e | vf2 <;>
      dsimp only <;> intro h
    · cases h
    · obtain ⟨hads1, htemp1, -⟩ :=
        raspaStep_preserves world cfg (initRecord cfg) vf1 hR
      obtain ⟨hads2, htemp2⟩ := geoStep_preserves cfg material vf1 vf2 _ hG
      simp only [zeoStep_eq]
      refine ⟨by simp, ?_, ?_, by simp, hzeo⟩
      · rw [List.getLastD_eq_getLast?, List.getLast?_concat]
        simp only [Option.getD_some]
        rw [hads2, hads1]
        rfl
      · rw [List.getLastD_eq_getLast?, List.getLast?_concat]
        simp only [Option.getD_some]
        rw [htemp2, htemp1]
        rfl

/-- **C10 witness.** -/
theorem claim_C10_witness :
    (run ⟨true, [], fun _ => 0, 1⟩ ⟨⟨1, 1, 1, []⟩, []⟩
          ⟨"helium", 298, 0, false, false, false⟩).1.void_fraction.length =
        (⟨⟨1, 1, 1, []⟩, []⟩ : Material).void_fraction.length + 1 ∧
      ((run ⟨true, [], fun _ => 0, 1⟩ ⟨⟨1, 1, 1, []⟩, []⟩
            ⟨"helium", 298, 0, false, false, false⟩).1.void_fraction.getLastD
          ⟨none, none, none, none⟩).adsorbate = some "helium" ∧
      ((run ⟨true, [], fun _ => 0, 1⟩ ⟨⟨1, 1, 1, []⟩, []⟩
            ⟨"helium", 298, 0, false, false, false⟩).1.void_fraction.getLastD
          ⟨none, none, none, none⟩).temperature = some 298 ∧
      (run ⟨true, [], fun _ => 0, 1⟩ ⟨⟨1, 1, 1, []⟩, []⟩
          ⟨"helium", 298, 0, false, false, false⟩).1.void_fraction.take
          (⟨⟨1, 1, 1, []⟩, []⟩ : Material).void_fraction.length =
        (⟨⟨1, 1, 1, []⟩, []⟩ : Material).void_fraction ∧
      run ⟨true, [], fun _ => 0, 1⟩ ⟨⟨1, 1, 1, []⟩, []⟩
          ⟨"helium", 298, 0, false, false, true⟩ =
        run ⟨true, [], fun _ => 0, 1⟩ ⟨⟨1, 1, 1, []⟩, []⟩
          ⟨"helium", 298, 0, false, false, false⟩ :=
  claim_C10_success_appends_one ⟨true, [], fun _ => 0, 1⟩ ⟨⟨1, 1, 1, []⟩, []⟩
    ⟨"helium", 298, 0, false, false, false⟩ rfl

/-- **C7.** When the geometric branch runs and completes, `run` has invoked
`calculate_void_fraction` with atoms whose Cartesian coordinates are the
material's box-fractional atom-site coordinates multiplied by the matching
cell edge lengths, the atom type's force-field `sigma` as per-atom radius,
the three edge lengths as the box, and the config's `probe_radius` as
probe radius; the appended record's `void_fraction_geo` holds exactly that
estimator's result. -/
theorem claim_C7_geo_branch_arguments (world : RunWorld) (material : Material)
    (cfg : SimulationConfig) (r : ℚ) (hg : cfg.do_geo = true)
    (hok : (run world material cfg).2 = .ok ())
    (hcalc : calculate_void_fraction
        (material.struct.atom_sites.map fun s =>
          ⟨s.x * material.struct.a, s.y * material.struct.b,
            s.z * material.struct.c, s.atom_types.sigma⟩)
        (material.struct.a, material.struct.b, material.struct.c)
        cfg.probe_radius world.nSamples = .ok r) :
    ((run world material cfg).1.void_fraction.getLastD
        ⟨none, none, none, none⟩).void_fraction_geo = some r := by
  unfold run at hok ⊢
  revert hok
  rcases hR : raspaStep world cfg (initRecord cfg) with e | vf1 <;> dsimp only <;>
    intro hok
  · cases hok
  · have hG : geoStep cfg material vf1 world.nSamples =
        .ok { vf1 with void_fraction_geo := some r } := by
      unfold geoStep
      rw [if_pos hg, hcalc]
    rw [hG]
    dsimp only
    simp only [zeoStep_eq]
    rw [List.getLastD_eq_getLast?, List.getLast?_concat]
    rfl

/-- **C7 witness.** -/
theorem claim_C7_witness :
    ((run ⟨true, [], fun _ => 0, 1⟩ ⟨⟨1, 1, 1, []⟩, []⟩
          ⟨"helium", 298, 0, false, true, false⟩).1.void_fraction.getLastD
        ⟨none, none, none, none⟩).void_fraction_geo =
      some (vfEstimate
        ((⟨⟨1, 1, 1, []⟩, []⟩ : Material).struct.atom_sites.map fun s =>
          ⟨s.x * 1, s.y * 1, s.z * 1, s.atom_types.sigma⟩)
        ((1 : ℚ), 1, 1) 0 1) :=
  claim_C7_geo_branch_arguments ⟨true, [], fun _ => 0, 1⟩ ⟨⟨1, 1, 1, []⟩, []⟩
    ⟨"helium", 298, 0, false, true, false⟩ _ rfl rfl
    (calculate_void_fraction_ok
      ((⟨⟨1, 1, 1, []⟩, []⟩ : Material).struct.atom_sites.map fun s =>
        ⟨s.x * 1, s.y * 1, s.z * 1, s.atom_types.sigma⟩)
      ((1 : ℚ), 1, 1) 0 1 (by norm_num) (by norm_num) (by norm_num) le_rfl)

end Htsohm
